import Mathlib

/-!
Verification of api-diff-checker: a shallow embedding of the fetch pipeline
(`src/fetchApiResponses.ts`) and the compare pipeline
(`src/compareApiResponses.ts`), with theorems settling the documented
behavioural claims about both.

External facilities (the JavaScript runtime's `JSON.parse`/`JSON.stringify`,
the filesystem, `axios`, and the `deep-diff` library) are modelled explicitly:
the filesystem as finite association lists, HTTP as an oracle function, and
`deep-diff` by its documented contract (no result exactly when the two values
are structurally equal).
-/

mutual

/-- A JSON value, as produced by `JSON.parse`. Numbers are modelled as
integers, which suffices for every claim (only the falsiness of `0` matters);
arrays and objects carry their own list types so that equality is derivable. -/
inductive Json where
  | null : Json
  | bool (b : Bool) : Json
  | num (n : Int) : Json
  | str (s : String) : Json
  | arr (elems : JsonList) : Json
  | obj (fields : JsonFields) : Json

inductive JsonList where
  | nil : JsonList
  | cons (hd : Json) (tl : JsonList) : JsonList

inductive JsonFields where
  | nil : JsonFields
  | cons (key : String) (val : Json) (tl : JsonFields) : JsonFields

end

deriving instance DecidableEq for Json

deriving instance DecidableEq for JsonList

deriving instance DecidableEq for JsonFields

deriving instance DecidableEq for Except

/-- JavaScript truthiness of a JSON value: `null`, `false`, `0` and `""` are
falsy; every other value, in particular every object and array, is truthy.
This is the semantics of `!x` applied in `compareApiResponses` and of
`if (response)` in `fetchAndSaveApiResponses`. -/
def Json.truthy : Json → Bool
  | .null => false
  | .bool b => b
  | .num n => n != 0
  | .str s => s != ""
  | .arr _ => true
  | .obj _ => true

/-- Content of one file on disk, as seen through `JSON.parse`: either a valid
JSON document or text on which `JSON.parse` raises a `SyntaxError`. -/
inductive FileData where
  | valid (v : Json) : FileData
  | invalid : FileData
deriving DecidableEq

/-- Lookup in an association list keyed by strings (files by path, directory
listings by path, output files by name). -/
def getVal {β : Type} : List (String × β) → String → Option β
  | [], _ => none
  | e :: rest, k => if e.1 = k then some e.2 else getVal rest k

/-- The filesystem as the compare pipeline observes it: `fs` backs
`fs.existsSync`/`fs.readFileSync` (path to content) and `dirs` backs
`fs.readdirSync` (directory path to its list of entry names). -/
structure World where
  fs : List (String × FileData)
  dirs : List (String × List String)

/-- Model of `fs.existsSync`: a path exists when it is a file or a directory. -/
def existsSync (w : World) (p : String) : Bool :=
  (getVal w.fs p).isSome || (getVal w.dirs p).isSome

/-- Model of `fs.readdirSync` on a directory path. -/
def readdir (w : World) (d : String) : List String :=
  (getVal w.dirs d).getD []

/-- Model of Node's `path.join(dir, name)` for a normalized directory path. -/
def pathJoin (dir name : String) : String := dir ++ "/" ++ name

/-- Embedding of `loadApiResponse` (compareApiResponses.ts:6-12): if the path
exists, `JSON.parse(fs.readFileSync(path))` — which throws on invalid JSON,
and `readFileSync` itself throws if the path is a directory; otherwise the
function returns `null` (modelled as the JSON value `null`, exactly as in
JavaScript where the two coincide). Exceptions are modelled by `Except.error`. -/
def loadApiResponse (w : World) (filePath : String) : Except String Json :=
  if existsSync w filePath then
    match getVal w.fs filePath with
    | some (.valid v) => .ok v
    | some .invalid => .error ("SyntaxError: Unexpected token in JSON at " ++ filePath)
    | none => .error ("EISDIR: illegal operation on a directory, read " ++ filePath)
  else
    .ok Json.null

/-- Model of the external `deep-diff` library's `diff` function by its
documented contract: it returns `undefined` (here `none`) exactly when the two
values are structurally equal, and otherwise an array of change records, whose
serialized form is abstracted as an opaque description — no claim inspects the
records themselves. -/
def diff (a b : Json) : Option String :=
  if a = b then none else some "[structural change records]"

/-- Embedding of `compareApiResponses` (compareApiResponses.ts:15-42): load
both paths (either load may throw on invalid JSON), then branch on the JS
truthiness of the two loaded values, and finally on the `deep-diff` result.
Returns the list of console lines printed, or the uncaught exception. -/
def compareApiResponses (w : World) (file1 file2 : String) :
    Except String (List String) :=
  match loadApiResponse w file1 with
  | .error e => .error e
  | .ok response1 =>
    match loadApiResponse w file2 with
    | .error e => .error e
    | .ok response2 =>
      if !response1.truthy && !response2.truthy then
        .ok ["Both files are missing: " ++ file1 ++ " and " ++ file2]
      else if !response1.truthy then
        .ok ["File missing in version 1: " ++ file1]
      else if !response2.truthy then
        .ok ["File missing in version 2: " ++ file2]
      else
        match diff response1 response2 with
        | some d =>
          .ok ["Differences found between " ++ file1 ++ " and " ++ file2 ++ ":", d]
        | none =>
          .ok ["No differences found between " ++ file1 ++ " and " ++ file2 ++
               ". The responses match."]

/-- One step of JavaScript `Set` construction: insert an element unless it is
already present, preserving insertion order. -/
def insertUnique (acc : List String) (x : String) : List String :=
  if x ∈ acc then acc else acc ++ [x]

/-- Model of `new Set([...files1, ...files2])` followed by iteration: the
insertion-order deduplication of a list. -/
def jsSet (l : List String) : List String := l.foldl insertUnique []

/-- The list of filenames one `compareDirectories` run iterates over:
the union of both listings, each filename once (compareApiResponses.ts:50). -/
def allFilesList (w : World) (dir1 dir2 : String) : List String :=
  jsSet (readdir w dir1 ++ readdir w dir2)

/-- The body of the `allFiles.forEach` callback in `compareDirectories`
(compareApiResponses.ts:52-62) for one filename: report a missing side, or
delegate to the pairwise comparator. -/
def reportFor (w : World) (dir1 dir2 f : String) : Except String (List String) :=
  let file1 := pathJoin dir1 f
  let file2 := pathJoin dir2 f
  if !(existsSync w file1) then
    .ok ["File missing in version 1: " ++ file1]
  else if !(existsSync w file2) then
    .ok ["File missing in version 2: " ++ file2]
  else
    compareApiResponses w file1 file2

/-- Iteration of `reportFor` over the filenames, concatenating console lines;
an exception thrown by the callback aborts the whole `forEach`. -/
def processFiles (w : World) (dir1 dir2 : String) :
    List String → Except String (List String)
  | [] => .ok []
  | f :: rest =>
    match reportFor w dir1 dir2 f with
    | .error e => .error e
    | .ok lines =>
      match processFiles w dir1 dir2 rest with
      | .error e => .error e
      | .ok restLines => .ok (lines ++ restLines)

/-- Embedding of `compareDirectories` (compareApiResponses.ts:45-64). -/
def compareDirectories (w : World) (dir1 dir2 : String) :
    Except String (List String) :=
  processFiles w dir1 dir2 (allFilesList w dir1 dir2)

/-- Embedding of the compare CLI `main` (compareApiResponses.ts:67-88):
returns the exit code and the console lines, or the uncaught exception. -/
def compareMain (w : World) (args : List String) :
    Except String (Nat × List String) :=
  let version1Dir := args.getD 0 ""
  let version2Dir := args.getD 1 ""
  if version1Dir = "" || version2Dir = "" then
    .ok (1, ["Please provide two directories as arguments (e.g., v1 and v2)"])
  else if !(existsSync w version1Dir) then
    .ok (1, ["Directory not found: " ++ version1Dir])
  else if !(existsSync w version2Dir) then
    .ok (1, ["Directory not found: " ++ version2Dir])
  else
    match compareDirectories w version1Dir version2Dir with
    | .error e => .error e
    | .ok lines => .ok (0, lines)

/-- An HTTP request as assembled by the `axios({...})` call in
`fetchApiResponse` (fetchApiResponses.ts:87-92): url, method, headers
forwarded verbatim, and `data` either absent (`undefined`) or a JSON value. -/
structure HttpRequest where
  url : String
  method : String
  headers : Json
  data : Option Json
deriving DecidableEq

/-- The network as an oracle: each request either yields a parsed response
body (`response.data`) or raises a network/HTTP-layer error. -/
def Http : Type := HttpRequest → Except String Json

/-- The request `fetchApiResponse` sends (fetchApiResponses.ts:87-92): the
`data` field is `method === 'POST' ? params : undefined`, so only `POST`
carries a body; every other method, `GET` included, sends none. -/
def sentRequest (url method : String) (headers params : Json) : HttpRequest :=
  ⟨url, method, headers, if method = "POST" then some params else none⟩

/-- Embedding of `fetchApiResponse` (fetchApiResponses.ts:85-99): on success
the parsed body and a progress log; on failure the error is caught, a
diagnostic naming the version label and URL is emitted, and the JS `null`
sentinel is returned instead of propagating the failure. -/
def fetchApiResponse (http : Http) (url method : String) (headers params : Json)
    (version : String) : Json × List String :=
  match http (sentRequest url method headers params) with
  | .ok d => (d, ["Fetched response from " ++ version ++ " " ++ url])
  | .error e =>
    (Json.null, ["Failed to fetch data from " ++ version ++ " " ++ url ++ ": " ++ e])

/-- One endpoint entry of the config document: `{name, url, method, headers,
params?}`; `params` is optional (`undefined` when absent). -/
structure ApiConfig where
  name : String
  url : String
  method : String
  headers : Json
  params : Option Json

/-- A parsed config document: `{version, apis}`. -/
structure Config where
  version : String
  apis : List ApiConfig

/-- The JS expression `api.params || {}` (fetchApiResponses.ts:120): an absent
or falsy `params` is replaced by the empty object. -/
def paramsOrEmpty : Option Json → Json
  | some v => if v.truthy then v else .obj .nil
  | none => .obj .nil

/-- The state of the output directory: the response JSON files (name to the
value whose 2-space pretty-print `saveApiResponseToFile` wrote) and the
`response_times.csv` file as a list of lines (`none` when absent). -/
structure OutState where
  jsonFiles : List (String × Json)
  csv : Option (List String)

/-- Model of `fs.writeFileSync` on a JSON output file: replace the content if
the file exists, otherwise create it. -/
def setJson (l : List (String × Json)) (k : String) (v : Json) :
    List (String × Json) :=
  if (getVal l k).isSome then
    l.map (fun e => if e.1 = k then (k, v) else e)
  else
    l ++ [(k, v)]

/-- Model of `fs.appendFileSync` on the CSV: append one line, creating the
file when absent. -/
def appendCsv (st : OutState) (line : String) : OutState :=
  ⟨st.jsonFiles, some ((st.csv.getD []) ++ [line])⟩

/-- The CSV header row written at batch start (fetchApiResponses.ts:116). -/
def csvHeader : String := "API名,レスポンス時間(ms)"

/-- The CSV row appended for the call at index `i` (fetchApiResponses.ts:122),
where `el i` is the observed elapsed time `Date.now() - start` of that call. -/
def csvRow (el : Nat → Nat) (i : Nat) (api : ApiConfig) : String :=
  api.name ++ "," ++ toString (el i)

/-- Embedding of the `for (const api of config.apis)` loop of
`fetchAndSaveApiResponses` (fetchApiResponses.ts:118-128): for each endpoint,
fetch, append the timing row, and write `<name>.json` only when the result is
truthy. `el` gives the elapsed milliseconds of the call at each index. Returns
the final output-directory state and the console lines. -/
def runApis (http : Http) (el : Nat → Nat) (version outputDir : String) :
    List ApiConfig → Nat → OutState → OutState × List String
  | [], _, st => (st, [])
  | api :: rest, i, st =>
    let fetched := fetchApiResponse http api.url api.method api.headers
      (paramsOrEmpty api.params) version
    let st1 := appendCsv st (csvRow el i api)
    let step :=
      if fetched.1.truthy then
        (⟨setJson st1.jsonFiles (api.name ++ ".json") fetched.1, st1.csv⟩,
         ["Response saved to " ++ pathJoin outputDir (api.name ++ ".json")])
      else
        (st1, ([] : List String))
    let tail := runApis http el version outputDir rest (i + 1) step.1
    (tail.1, fetched.2 ++ step.2 ++ tail.2)

/-- Embedding of `fetchAndSaveApiResponses` (fetchApiResponses.ts:108-131).
`config` is the result of `loadConfig(configFilePath)` — the parsed document,
or `none` when `loadConfig` returned a falsy value (missing config file): in
that case the function returns `false` without touching the directory.
Otherwise it truncates `response_times.csv` to the single header row
(fetchApiResponses.ts:115-116), runs the endpoint loop, and returns `true`. -/
def fetchAndSaveApiResponses (http : Http) (el : Nat → Nat)
    (config : Option Config) (outputDir : String) (init : OutState) :
    Bool × OutState × List String :=
  match config with
  | none => (false, init, [])
  | some cfg =>
    let st0 : OutState := ⟨init.jsonFiles, some [csvHeader]⟩
    let run := runApis http el cfg.version outputDir cfg.apis 0 st0
    (true, run.1, run.2)

/-- The rows the loop appends to the CSV for the calls of `apis` starting at
index `i`: one row per call, in call order, success or failure alike. -/
def csvRows (el : Nat → Nat) : List ApiConfig → Nat → List String
  | [], _ => []
  | api :: rest, i => csvRow el i api :: csvRows el rest (i + 1)

deriving instance DecidableEq for OutState

/-- A path that holds parseable JSON content (so `JSON.parse` will not throw
and `readFileSync` will not hit a directory). -/
def isValidFile (w : World) (p : String) : Bool :=
  match getVal w.fs p with
  | some (.valid _) => true
  | _ => false

/-- The response value an endpoint call produces (the null sentinel when the
call failed): the first component of `fetchApiResponse`. -/
def responseOf (http : Http) (version : String) (api : ApiConfig) : Json :=
  (fetchApiResponse http api.url api.method api.headers
    (paramsOrEmpty api.params) version).1

/-- The output-directory state a batch run leaves behind. -/
def batchOut (http : Http) (el : Nat → Nat) (cfg : Config) (outputDir : String)
    (init : OutState) : OutState :=
  (fetchAndSaveApiResponses http el (some cfg) outputDir init).2.1


/-! ### Helper lemmas: association-list lookup, JS `Set` union, loop structure -/

theorem mem_insertUnique {acc : List String} {a x : String} :
    x ∈ insertUnique acc a ↔ x ∈ acc ∨ x = a := by
  by_cases h : a ∈ acc
  · simp only [insertUnique, if_pos h]
    constructor
    · exact Or.inl
    · rintro (hx | rfl)
      · exact hx
      · exact h
  · simp [insertUnique, if_neg h]

theorem nodup_insertUnique {acc : List String} {a : String} (h : acc.Nodup) :
    (insertUnique acc a).Nodup := by
  by_cases ha : a ∈ acc
  · simpa [insertUnique, if_pos ha] using h
  · simp only [insertUnique, if_neg ha]
    rw [← List.concat_eq_append]
    exact h.concat ha

theorem mem_foldl_insertUnique (l : List String) :
    ∀ acc x, x ∈ l.foldl insertUnique acc ↔ x ∈ acc ∨ x ∈ l := by
  induction l with
  | nil => simp
  | cons a tl ih =>
    intro acc x
    simp only [List.foldl_cons, ih, mem_insertUnique, List.mem_cons]
    tauto

theorem nodup_foldl_insertUnique (l : List String) :
    ∀ acc, acc.Nodup → (l.foldl insertUnique acc).Nodup := by
  induction l with
  | nil => exact fun _ h => h
  | cons a tl ih => exact fun acc h => ih _ (nodup_insertUnique h)

theorem mem_jsSet {l : List String} {x : String} : x ∈ jsSet l ↔ x ∈ l := by
  simp [jsSet, mem_foldl_insertUnique]

theorem nodup_jsSet (l : List String) : (jsSet l).Nodup :=
  nodup_foldl_insertUnique l [] List.nodup_nil

theorem count_jsSet_eq_one {l : List String} {x : String} (h : x ∈ l) :
    (jsSet l).count x = 1 :=
  List.count_eq_one_of_mem (nodup_jsSet l) (mem_jsSet.mpr h)

theorem processFiles_mem_report (w : World) (dir1 dir2 : String) :
    ∀ files lines f, processFiles w dir1 dir2 files = .ok lines → f ∈ files →
      ∃ fls, reportFor w dir1 dir2 f = .ok fls ∧ ∀ x ∈ fls, x ∈ lines := by
  intro files
  induction files with
  | nil => intro lines f _ hf; cases hf
  | cons g rest ih =>
    intro lines f hrun hf
    unfold processFiles at hrun
    cases hg : reportFor w dir1 dir2 g with
    | error e => rw [hg] at hrun; cases hrun
    | ok gls =>
      rw [hg] at hrun
      cases hrest : processFiles w dir1 dir2 rest with
      | error e => rw [hrest] at hrun; cases hrun
      | ok restLines =>
        rw [hrest] at hrun
        cases hrun
        rcases List.mem_cons.mp hf with rfl | hfr
        · exact ⟨gls, hg, fun x hx => List.mem_append_left _ hx⟩
        · rcases ih restLines f hrest hfr with ⟨fls, hrep, hsub⟩
          exact ⟨fls, hrep, fun x hx => List.mem_append_right _ (hsub x hx)⟩

theorem loadApiResponse_of_valid {w : World} {p : String} {v : Json}
    (h : getVal w.fs p = some (.valid v)) : loadApiResponse w p = .ok v := by
  unfold loadApiResponse existsSync
  rw [h]
  simp

theorem compareApiResponses_ok_of_loads {w : World} {f1 f2 : String} {v1 v2 : Json}
    (h1 : loadApiResponse w f1 = .ok v1) (h2 : loadApiResponse w f2 = .ok v2) :
    ∃ ls, compareApiResponses w f1 f2 = .ok ls := by
  unfold compareApiResponses
  rw [h1]
  dsimp only
  rw [h2]
  dsimp only
  split
  · exact ⟨_, rfl⟩
  · split
    · exact ⟨_, rfl⟩
    · split
      · exact ⟨_, rfl⟩
      · cases diff v1 v2 <;> exact ⟨_, rfl⟩

/-! ### C2 — pairwise comparator outcomes -/

/-- C2 counterexample: the three outcomes are not decided by load
success/failure. Here both loads succeed (the files exist and parse: `false`
and `{}`), yet the comparator reports "File missing in version 1" instead of
computing a structural diff, because it branches on JS truthiness of the
loaded value, and `false` is falsy. -/
theorem compareApiResponses_load_success_reported_missing_cex :
    loadApiResponse ⟨[("a.json", .valid (.bool false)),
                      ("b.json", .valid (.obj .nil))], []⟩ "a.json"
        = .ok (.bool false) ∧
    loadApiResponse ⟨[("a.json", .valid (.bool false)),
                      ("b.json", .valid (.obj .nil))], []⟩ "b.json"
        = .ok (.obj .nil) ∧
    compareApiResponses ⟨[("a.json", .valid (.bool false)),
                          ("b.json", .valid (.obj .nil))], []⟩ "a.json" "b.json"
        = .ok ["File missing in version 1: a.json"] := by
  decide

/-- C2 (amended): for every pair of paths whose loads both return (a missing
file loads as `null`; invalid JSON throws instead), exactly one of three
outcomes is reported, decided in priority order on the JS truthiness of the
two loaded values — both falsy: both files missing; exactly the first falsy:
missing in version 1; exactly the second falsy: missing in version 2; both
truthy: a structural diff, reported as a match when empty and as the
serialized diff otherwise. -/
theorem compareApiResponses_truthiness_outcomes (w : World) (f1 f2 : String)
    (v1 v2 : Json)
    (h1 : loadApiResponse w f1 = .ok v1) (h2 : loadApiResponse w f2 = .ok v2) :
    (v1.truthy = false → v2.truthy = false →
      compareApiResponses w f1 f2 =
        .ok ["Both files are missing: " ++ f1 ++ " and " ++ f2]) ∧
    (v1.truthy = false → v2.truthy = true →
      compareApiResponses w f1 f2 =
        .ok ["File missing in version 1: " ++ f1]) ∧
    (v1.truthy = true → v2.truthy = false →
      compareApiResponses w f1 f2 =
        .ok ["File missing in version 2: " ++ f2]) ∧
    (v1.truthy = true → v2.truthy = true → v1 = v2 →
      compareApiResponses w f1 f2 =
        .ok ["No differences found between " ++ f1 ++ " and " ++ f2 ++
             ". The responses match."]) ∧
    (v1.truthy = true → v2.truthy = true → v1 ≠ v2 →
      compareApiResponses w f1 f2 =
        .ok ["Differences found between " ++ f1 ++ " and " ++ f2 ++ ":",
             "[structural change records]"]) := by
  have hbase : compareApiResponses w f1 f2 =
      (if !v1.truthy && !v2.truthy then
        .ok ["Both files are missing: " ++ f1 ++ " and " ++ f2]
      else if !v1.truthy then
        .ok ["File missing in version 1: " ++ f1]
      else if !v2.truthy then
        .ok ["File missing in version 2: " ++ f2]
      else
        match diff v1 v2 with
        | some d =>
          .ok ["Differences found between " ++ f1 ++ " and " ++ f2 ++ ":", d]
        | none =>
          .ok ["No differences found between " ++ f1 ++ " and " ++ f2 ++
               ". The responses match."]) := by
    unfold compareApiResponses
    rw [h1]
    dsimp only
    rw [h2]
  refine ⟨?_, ?_, ?_, ?_, ?_⟩
  · intro ht1 ht2
    rw [hbase]
    simp [ht1, ht2]
  · intro ht1 ht2
    rw [hbase]
    simp [ht1, ht2]
  · intro ht1 ht2
    rw [hbase]
    simp [ht1, ht2]
  · intro ht1 ht2 heq
    rw [hbase]
    simp [ht1, ht2, diff, heq]
  · intro ht1 ht2 hne
    rw [hbase]
    simp [ht1, ht2, diff, hne]

/-- Witness for C2 (amended), at a pair of truthy unequal objects. -/
theorem compareApiResponses_truthiness_outcomes_witness :
    compareApiResponses
      ⟨[("a.json", .valid (.obj (.cons "m" (.str "v1") .nil))),
        ("b.json", .valid (.obj (.cons "m" (.str "v2") .nil)))], []⟩
      "a.json" "b.json"
      = .ok ["Differences found between a.json and b.json:",
             "[structural change records]"] := by
  have h := (compareApiResponses_truthiness_outcomes
    ⟨[("a.json", .valid (.obj (.cons "m" (.str "v1") .nil))),
      ("b.json", .valid (.obj (.cons "m" (.str "v2") .nil)))], []⟩
    "a.json" "b.json"
    (.obj (.cons "m" (.str "v1") .nil)) (.obj (.cons "m" (.str "v2") .nil))
    (by decide) (by decide)).2.2.2.2 (by decide) (by decide) (by decide)
  exact h.trans (by decide)

/-! ### C6 — comparing a file to itself -/

/-- C6 counterexample: a file whose content parses as the JSON value `false`
(falsy) compared against itself is reported as "Both files are missing", not
as a match, because the comparator branches on truthiness. -/
theorem compare_self_falsy_cex :
    loadApiResponse ⟨[("f.json", .valid (.bool false))], []⟩ "f.json"
        = .ok (.bool false) ∧
    compareApiResponses ⟨[("f.json", .valid (.bool false))], []⟩ "f.json" "f.json"
        = .ok ["Both files are missing: f.json and f.json"] := by
  decide

/-- C6 (amended): for every file path whose content parses as a truthy JSON
value (anything but `null`, `false`, `0`, `""`), comparing the file to itself
always reports the no-differences/match outcome. -/
theorem compare_self_truthy_matches (w : World) (f : String) (v : Json)
    (hload : getVal w.fs f = some (.valid v)) (ht : v.truthy = true) :
    compareApiResponses w f f =
      .ok ["No differences found between " ++ f ++ " and " ++ f ++
           ". The responses match."] := by
  have hl := loadApiResponse_of_valid hload
  exact (compareApiResponses_truthiness_outcomes w f f v v hl hl).2.2.2.1 ht ht rfl

/-- Witness for C6 (amended), at a file containing the object
`{"message":"hi"}`. -/
theorem compare_self_truthy_matches_witness :
    compareApiResponses
      ⟨[("g.json", .valid (.obj (.cons "message" (.str "hi") .nil)))], []⟩
      "g.json" "g.json"
      = .ok ["No differences found between g.json and g.json. The responses match."] := by
  have h := compare_self_truthy_matches
    ⟨[("g.json", .valid (.obj (.cons "message" (.str "hi") .nil)))], []⟩
    "g.json" (.obj (.cons "message" (.str "hi") .nil)) (by decide) (by decide)
  exact h.trans (by decide)

/-! ### C4 — per-item failure policy of the compare run -/

theorem loadApiResponse_ok_of_validFile {w : World} {p : String}
    (hv : isValidFile w p = true) : ∃ v, loadApiResponse w p = .ok v := by
  unfold isValidFile at hv
  cases hg : getVal w.fs p with
  | none => rw [hg] at hv; cases hv
  | some c =>
    cases c with
    | valid v => exact ⟨v, loadApiResponse_of_valid hg⟩
    | invalid => rw [hg] at hv; cases hv

theorem processFiles_ok_of_reports (w : World) (dir1 dir2 : String) :
    ∀ files, (∀ f ∈ files, ∃ ls, reportFor w dir1 dir2 f = .ok ls) →
      ∃ lines, processFiles w dir1 dir2 files = .ok lines := by
  intro files
  induction files with
  | nil => exact fun _ => ⟨[], rfl⟩
  | cons g rest ih =>
    intro h
    rcases h g (List.mem_cons_self g rest) with ⟨gls, hg⟩
    rcases ih (fun f hf => h f (List.mem_cons_of_mem g hf)) with ⟨restLines, hrest⟩
    refine ⟨gls ++ restLines, ?_⟩
    unfold processFiles
    rw [hg, hrest]

/-- C4 counterexample: one file with invalid JSON content aborts the whole
directory comparison. In this world `x.json` exists on both sides but the
version-1 copy is not valid JSON; the run throws a parse error, and the second
pair (`y.json`, identical on both sides) is never compared — no report for it
is produced, contradicting the skip-and-report claim. -/
theorem compareDirectories_invalid_aborts_cex :
    compareDirectories
      ⟨[("d1/x.json", .invalid), ("d2/x.json", .valid (.num 1)),
        ("d1/y.json", .valid (.num 2)), ("d2/y.json", .valid (.num 2))],
       [("d1", ["x.json", "y.json"]), ("d2", ["x.json", "y.json"])]⟩
      "d1" "d2"
      = .error "SyntaxError: Unexpected token in JSON at d1/x.json" := by
  decide

/-- C4 (amended): per-item failures where a file is missing on one side are
degraded to skip-and-report and never abort the run: whenever every file path
the run can reach (both joins of every filename in the union) either does not
exist or holds valid JSON, the comparator runs to completion over all
filenames. A file whose content is not valid JSON, however, raises an uncaught
parse error that aborts the whole run (see the counterexample). -/
theorem compareDirectories_completes_when_all_valid (w : World) (dir1 dir2 : String)
    (hval : ∀ f ∈ allFilesList w dir1 dir2,
      (existsSync w (pathJoin dir1 f) = true → isValidFile w (pathJoin dir1 f) = true) ∧
      (existsSync w (pathJoin dir2 f) = true → isValidFile w (pathJoin dir2 f) = true)) :
    ∃ lines, compareDirectories w dir1 dir2 = .ok lines := by
  unfold compareDirectories
  apply processFiles_ok_of_reports
  intro f hf
  rcases hval f hf with ⟨hv1, hv2⟩
  cases he1 : existsSync w (pathJoin dir1 f) with
  | false =>
    refine ⟨["File missing in version 1: " ++ pathJoin dir1 f], ?_⟩
    unfold reportFor
    simp [he1]
  | true =>
    cases he2 : existsSync w (pathJoin dir2 f) with
    | false =>
      refine ⟨["File missing in version 2: " ++ pathJoin dir2 f], ?_⟩
      unfold reportFor
      simp [he1, he2]
    | true =>
      rcases loadApiResponse_ok_of_validFile (hv1 he1) with ⟨v1, hl1⟩
      rcases loadApiResponse_ok_of_validFile (hv2 he2) with ⟨v2, hl2⟩
      rcases compareApiResponses_ok_of_loads hl1 hl2 with ⟨ls, hc⟩
      refine ⟨ls, ?_⟩
      unfold reportFor
      simp [he1, he2, hc]

/-- Witness for C4 (amended): a run with a file missing on one side and no
invalid content completes. -/
theorem compareDirectories_completes_when_all_valid_witness :
    ∃ lines, compareDirectories
      ⟨[("d1/a.json", .valid (.num 1)), ("d2/a.json", .valid (.num 1)),
        ("d1/b.json", .valid (.num 2))],
       [("d1", ["a.json", "b.json"]), ("d2", ["a.json"])]⟩
      "d1" "d2" = .ok lines :=
  compareDirectories_completes_when_all_valid
    ⟨[("d1/a.json", .valid (.num 1)), ("d2/a.json", .valid (.num 1)),
      ("d1/b.json", .valid (.num 2))],
     [("d1", ["a.json", "b.json"]), ("d2", ["a.json"])]⟩
    "d1" "d2" (by decide)

/-! ### C7 — missing-file report lines and single visit -/

/-- C7: in a directory comparison, a filename present only in directory 1
(it is listed there and its joined path exists, while the join under
directory 2 does not) gets exactly the report line
"File missing in version 2: dir2/filename", which appears in the run's
output; symmetrically, a filename whose join under directory 1 does not exist
gets exactly "File missing in version 1: dir1/filename"; and every filename in
the union of the two listings is visited exactly once. -/
theorem compareDirectories_missing_reports (w : World) (dir1 dir2 f : String)
    (lines : List String)
    (hrun : compareDirectories w dir1 dir2 = .ok lines) :
    ((f ∈ readdir w dir1 ∨ f ∈ readdir w dir2) →
      (allFilesList w dir1 dir2).count f = 1) ∧
    (f ∈ readdir w dir1 → existsSync w (pathJoin dir1 f) = true →
      existsSync w (pathJoin dir2 f) = false →
      reportFor w dir1 dir2 f =
        .ok ["File missing in version 2: " ++ pathJoin dir2 f] ∧
      ("File missing in version 2: " ++ pathJoin dir2 f) ∈ lines) ∧
    (f ∈ readdir w dir2 → existsSync w (pathJoin dir1 f) = false →
      reportFor w dir1 dir2 f =
        .ok ["File missing in version 1: " ++ pathJoin dir1 f] ∧
      ("File missing in version 1: " ++ pathJoin dir1 f) ∈ lines) := by
  refine ⟨?_, ?_, ?_⟩
  · intro hm
    exact count_jsSet_eq_one (List.mem_append.mpr hm)
  · intro hm he1 he2
    have hrep : reportFor w dir1 dir2 f =
        .ok ["File missing in version 2: " ++ pathJoin dir2 f] := by
      unfold reportFor
      simp [he1, he2]
    refine ⟨hrep, ?_⟩
    have hmem : f ∈ allFilesList w dir1 dir2 :=
      mem_jsSet.mpr (List.mem_append.mpr (Or.inl hm))
    rcases processFiles_mem_report w dir1 dir2 _ lines f hrun hmem with
      ⟨fls, hr2, hsub⟩
    rw [hrep] at hr2
    cases hr2
    exact hsub _ (List.mem_singleton.mpr rfl)
  · intro hm he1
    have hrep : reportFor w dir1 dir2 f =
        .ok ["File missing in version 1: " ++ pathJoin dir1 f] := by
      unfold reportFor
      simp [he1]
    refine ⟨hrep, ?_⟩
    have hmem : f ∈ allFilesList w dir1 dir2 :=
      mem_jsSet.mpr (List.mem_append.mpr (Or.inr hm))
    rcases processFiles_mem_report w dir1 dir2 _ lines f hrun hmem with
      ⟨fls, hr2, hsub⟩
    rw [hrep] at hr2
    cases hr2
    exact hsub _ (List.mem_singleton.mpr rfl)

/-- Witness for C7, at a world where `b.json` exists only in directory 1
and `c.json` only in directory 2. -/
theorem compareDirectories_missing_reports_witness :
    reportFor
      ⟨[("d1/a.json", .valid (.num 1)), ("d2/a.json", .valid (.num 1)),
        ("d1/b.json", .valid (.num 2)), ("d2/c.json", .valid (.num 3))],
       [("d1", ["a.json", "b.json"]), ("d2", ["a.json", "c.json"])]⟩
      "d1" "d2" "b.json"
      = .ok ["File missing in version 2: " ++ pathJoin "d2" "b.json"] ∧
    ("File missing in version 2: " ++ pathJoin "d2" "b.json") ∈
      ["No differences found between d1/a.json and d2/a.json. The responses match.",
       "File missing in version 2: d2/b.json",
       "File missing in version 1: d1/c.json"] ∧
    (allFilesList
      ⟨[("d1/a.json", .valid (.num 1)), ("d2/a.json", .valid (.num 1)),
        ("d1/b.json", .valid (.num 2)), ("d2/c.json", .valid (.num 3))],
       [("d1", ["a.json", "b.json"]), ("d2", ["a.json", "c.json"])]⟩
      "d1" "d2").count "b.json" = 1 := by
  have h := compareDirectories_missing_reports
    ⟨[("d1/a.json", .valid (.num 1)), ("d2/a.json", .valid (.num 1)),
      ("d1/b.json", .valid (.num 2)), ("d2/c.json", .valid (.num 3))],
     [("d1", ["a.json", "b.json"]), ("d2", ["a.json", "c.json"])]⟩
    "d1" "d2" "b.json"
    ["No differences found between d1/a.json and d2/a.json. The responses match.",
     "File missing in version 2: d2/b.json",
     "File missing in version 1: d1/c.json"]
    (by decide)
  have h2 := h.2.1 (by decide) (by decide) (by decide)
  exact ⟨h2.1, h2.2, h.1 (Or.inl (by decide))⟩

/-! ### C8 — compare CLI exit codes -/

/-- C8: the compare CLI returns exit code 0 whenever it runs to completion
over two existing directories — whatever report lines were produced, so also
when differences were found — and exit code 1 when a positional argument is
missing or a directory does not exist, each directory check reported
independently and short-circuiting (the first failing check decides, without
looking at the second directory). -/
theorem compareMain_exit_codes (w : World) (d1 d2 : String) (lines : List String) :
    (compareMain w [] =
      .ok (1, ["Please provide two directories as arguments (e.g., v1 and v2)"])) ∧
    (compareMain w [d1] =
      .ok (1, ["Please provide two directories as arguments (e.g., v1 and v2)"])) ∧
    (d1 ≠ "" → d2 ≠ "" → existsSync w d1 = false →
      compareMain w [d1, d2] = .ok (1, ["Directory not found: " ++ d1])) ∧
    (d1 ≠ "" → d2 ≠ "" → existsSync w d1 = true → existsSync w d2 = false →
      compareMain w [d1, d2] = .ok (1, ["Directory not found: " ++ d2])) ∧
    (d1 ≠ "" → d2 ≠ "" → existsSync w d1 = true → existsSync w d2 = true →
      compareDirectories w d1 d2 = .ok lines →
      compareMain w [d1, d2] = .ok (0, lines)) := by
  refine ⟨rfl, ?_, ?_, ?_, ?_⟩
  · simp [compareMain]
  · intro h1 h2 he1
    simp [compareMain, h1, h2, he1]
  · intro h1 h2 he1 he2
    simp [compareMain, h1, h2, he1, he2]
  · intro h1 h2 he1 he2 hrun
    simp [compareMain, h1, h2, he1, he2, hrun]

/-- Witness for C8: a completed run over two existing directories whose only
pair differs still exits 0, and a missing second directory exits 1. -/
theorem compareMain_exit_codes_witness :
    compareMain
      ⟨[("d1/x.json", .valid (.num 1)), ("d2/x.json", .valid (.num 2))],
       [("d1", ["x.json"]), ("d2", ["x.json"])]⟩
      ["d1", "d2"]
      = .ok (0, ["Differences found between d1/x.json and d2/x.json:",
                 "[structural change records]"]) ∧
    compareMain
      ⟨[("d1/x.json", .valid (.num 1)), ("d2/x.json", .valid (.num 2))],
       [("d1", ["x.json"]), ("d2", ["x.json"])]⟩
      ["d1", "missing"]
      = .ok (1, ["Directory not found: missing"]) := by
  have h := compareMain_exit_codes
    ⟨[("d1/x.json", .valid (.num 1)), ("d2/x.json", .valid (.num 2))],
     [("d1", ["x.json"]), ("d2", ["x.json"])]⟩
    "d1" "d2"
    ["Differences found between d1/x.json and d2/x.json:",
     "[structural change records]"]
  have h2 := compareMain_exit_codes
    ⟨[("d1/x.json", .valid (.num 1)), ("d2/x.json", .valid (.num 2))],
     [("d1", ["x.json"]), ("d2", ["x.json"])]⟩
    "d1" "missing" []
  refine ⟨h.2.2.2.2 (by decide) (by decide) (by decide) (by decide) (by decide), ?_⟩
  exact h2.2.2.2.1 (by decide) (by decide) (by decide) (by decide)

/-! ### Fetch-side helper lemmas -/

theorem getVal_append_of_some {β : Type} {l m : List (String × β)} {k : String}
    {v : β} (h : getVal l k = some v) : getVal (l ++ m) k = some v := by
  induction l with
  | nil => cases h
  | cons e rest ih =>
    simp only [getVal] at h
    simp only [List.cons_append, getVal]
    by_cases he : e.1 = k
    · rw [if_pos he] at h ⊢; exact h
    · rw [if_neg he] at h ⊢; exact ih h

theorem getVal_append_of_none {β : Type} {l m : List (String × β)} {k : String}
    (h : getVal l k = none) : getVal (l ++ m) k = getVal m k := by
  induction l with
  | nil => rfl
  | cons e rest ih =>
    simp only [getVal] at h
    simp only [List.cons_append, getVal]
    by_cases he : e.1 = k
    · rw [if_pos he] at h; cases h
    · rw [if_neg he] at h ⊢; exact ih h

theorem getVal_map_update_ne {l : List (String × Json)} {key : String} {v : Json}
    {k : String} (h : key ≠ k) :
    getVal (l.map (fun e => if e.1 = key then (key, v) else e)) k = getVal l k := by
  induction l with
  | nil => rfl
  | cons e rest ih =>
    simp only [List.map_cons, getVal]
    by_cases he : e.1 = key
    · have hek : e.1 ≠ k := by rw [he]; exact h
      simp [he, h, hek, ih]
    · by_cases hek : e.1 = k
      · have hke : ¬ k = key := fun hh => h hh.symm
        simp [he, hek, hke]
      · simp [he, hek, ih]

theorem getVal_map_update_self {l : List (String × Json)} {key : String} {v : Json}
    (h : (getVal l key).isSome = true) :
    getVal (l.map (fun e => if e.1 = key then (key, v) else e)) key = some v := by
  induction l with
  | nil => cases h
  | cons e rest ih =>
    simp only [getVal] at h
    simp only [List.map_cons, getVal]
    by_cases he : e.1 = key
    · simp [he]
    · rw [if_neg he] at h
      simp [he, ih h]

theorem getVal_setJson (l : List (String × Json)) (key : String) (v : Json)
    (k : String) :
    getVal (setJson l key v) k = if key = k then some v else getVal l k := by
  unfold setJson
  by_cases hs : (getVal l key).isSome = true
  · rw [if_pos hs]
    by_cases hk : key = k
    · subst hk
      rw [if_pos rfl]
      exact getVal_map_update_self hs
    · rw [if_neg hk]
      exact getVal_map_update_ne hk
  · rw [if_neg hs]
    by_cases hk : key = k
    · subst hk
      have hnone : getVal l key = none := by
        cases hg : getVal l key with
        | none => rfl
        | some x => rw [hg] at hs; simp at hs
      rw [if_pos rfl, getVal_append_of_none hnone]
      simp [getVal]
    · rw [if_neg hk]
      cases hg : getVal l k with
      | some x => exact getVal_append_of_some hg
      | none =>
        rw [getVal_append_of_none hg]
        simp [getVal, hk]

theorem csvRows_length (el : Nat → Nat) :
    ∀ apis i, (csvRows el apis i).length = apis.length := by
  intro apis
  induction apis with
  | nil => intro i; rfl
  | cons api rest ih => intro i; simp [csvRows, ih]

theorem runApis_csv (http : Http) (el : Nat → Nat) (version outputDir : String) :
    ∀ apis i st acc, st.csv = some acc →
      ((runApis http el version outputDir apis i st).1).csv
        = some (acc ++ csvRows el apis i) := by
  intro apis
  induction apis with
  | nil =>
    intro i st acc h
    simpa [runApis, csvRows] using h
  | cons api rest ih =>
    intro i st acc h
    simp only [runApis]
    cases ht : (fetchApiResponse http api.url api.method api.headers
        (paramsOrEmpty api.params) version).1.truthy
    · simp only [ht, Bool.false_eq_true, if_false]
      rw [ih (i + 1) _ (acc ++ [csvRow el i api]) (by simp [appendCsv, h])]
      simp [csvRows]
    · simp only [ht, if_true]
      rw [ih (i + 1) _ (acc ++ [csvRow el i api]) (by simp [appendCsv, h])]
      simp [csvRows]

theorem setJson_length_le (l : List (String × Json)) (k : String) (v : Json) :
    (setJson l k v).length ≤ l.length + 1 := by
  unfold setJson
  split
  · simp
  · simp


theorem runApis_files_length (http : Http) (el : Nat → Nat)
    (version outputDir : String) :
    ∀ apis i st, ((runApis http el version outputDir apis i st).1).jsonFiles.length
      ≤ st.jsonFiles.length + apis.length := by
  intro apis
  induction apis with
  | nil => intro i st; simp [runApis]
  | cons api rest ih =>
    intro i st
    simp only [runApis]
    cases ht : (fetchApiResponse http api.url api.method api.headers
        (paramsOrEmpty api.params) version).1.truthy
    · simp only [ht, Bool.false_eq_true, if_false]
      have hthis := ih (i + 1) (appendCsv st (csvRow el i api))
      have hjson : (appendCsv st (csvRow el i api)).jsonFiles = st.jsonFiles := rfl
      rw [hjson] at hthis
      simp only [List.length_cons]
      omega
    · simp only [ht, if_true]
      have h1 := ih (i + 1)
        ⟨setJson (appendCsv st (csvRow el i api)).jsonFiles (api.name ++ ".json")
          (fetchApiResponse http api.url api.method api.headers
            (paramsOrEmpty api.params) version).1,
         (appendCsv st (csvRow el i api)).csv⟩
      have h2 := setJson_length_le (appendCsv st (csvRow el i api)).jsonFiles
        (api.name ++ ".json")
        (fetchApiResponse http api.url api.method api.headers
          (paramsOrEmpty api.params) version).1
      dsimp only at h1
      have hl : (appendCsv st (csvRow el i api)).jsonFiles.length
          = st.jsonFiles.length := rfl
      rw [hl] at h2
      simp only [List.length_cons]
      omega

theorem runApis_getVal_frame (http : Http) (el : Nat → Nat)
    (version outputDir : String) (k : String) :
    ∀ apis i st,
      (∀ api ∈ apis, api.name ++ ".json" = k →
        (responseOf http version api).truthy = false) →
      getVal ((runApis http el version outputDir apis i st).1).jsonFiles k
        = getVal st.jsonFiles k := by
  intro apis
  induction apis with
  | nil => intro i st _; simp [runApis]
  | cons api rest ih =>
    intro i st hall
    simp only [runApis]
    cases ht : (fetchApiResponse http api.url api.method api.headers
        (paramsOrEmpty api.params) version).1.truthy
    · simp only [ht, Bool.false_eq_true, if_false]
      rw [ih (i + 1) _ (fun a ha => hall a (List.mem_cons_of_mem api ha))]
      rfl
    · simp only [ht, if_true]
      have hne : ¬ (api.name ++ ".json" = k) := by
        intro hk
        have hfalse := hall api (List.mem_cons_self api rest) hk
        unfold responseOf at hfalse
        rw [ht] at hfalse
        cases hfalse
      rw [ih (i + 1) _ (fun a ha => hall a (List.mem_cons_of_mem api ha))]
      dsimp only
      rw [getVal_setJson, if_neg hne]
      rfl

theorem runApis_getVal_isSome_mono (http : Http) (el : Nat → Nat)
    (version outputDir : String) (k : String) :
    ∀ apis i st, (getVal st.jsonFiles k).isSome = true →
      (getVal ((runApis http el version outputDir apis i st).1).jsonFiles k).isSome
        = true := by
  intro apis
  induction apis with
  | nil => intro i st h; simpa [runApis] using h
  | cons api rest ih =>
    intro i st h
    simp only [runApis]
    cases ht : (fetchApiResponse http api.url api.method api.headers
        (paramsOrEmpty api.params) version).1.truthy
    · simp only [ht, Bool.false_eq_true, if_false]
      exact ih (i + 1) (appendCsv st (csvRow el i api)) h
    · simp only [ht, if_true]
      apply ih
      dsimp only
      rw [getVal_setJson]
      by_cases hk : api.name ++ ".json" = k
      · rw [if_pos hk]; rfl
      · rw [if_neg hk]; exact h

theorem runApis_getVal_origin (http : Http) (el : Nat → Nat)
    (version outputDir : String) (k : String) :
    ∀ apis i st,
      (getVal ((runApis http el version outputDir apis i st).1).jsonFiles k).isSome
        = true →
      (getVal st.jsonFiles k).isSome = true ∨
        k ∈ apis.map (fun a => a.name ++ ".json") := by
  intro apis
  induction apis with
  | nil =>
    intro i st h
    simp only [runApis] at h
    exact Or.inl h
  | cons api rest ih =>
    intro i st
    simp only [runApis]
    cases ht : (fetchApiResponse http api.url api.method api.headers
        (paramsOrEmpty api.params) version).1.truthy
    · simp only [ht, Bool.false_eq_true, if_false]
      intro h
      rcases ih (i + 1) _ h with h' | h'
      · exact Or.inl h'
      · simp only [List.map_cons]
        exact Or.inr (List.mem_cons_of_mem _ h')
    · simp only [ht, if_true]
      intro h
      rcases ih (i + 1) _ h with h' | h'
      · dsimp only at h'
        rw [getVal_setJson] at h'
        by_cases hk : api.name ++ ".json" = k
        · simp only [List.map_cons]
          exact Or.inr (List.mem_cons.mpr (Or.inl hk.symm))
        · rw [if_neg hk] at h'
          exact Or.inl h'
      · simp only [List.map_cons]
        exact Or.inr (List.mem_cons_of_mem _ h')

/-! ### C1 — endpoint failure is caught, reported, and isolated -/

/-- C1: when an endpoint call fails at the network/HTTP layer,
`fetchApiResponse` catches the failure, emits a diagnostic naming the version
label and the URL, and returns the null sentinel; the batch loop appends the
timing row for the call, writes no response file in that step, and continues
with exactly the remaining endpoints — the failure never aborts the batch. -/
theorem fetchApiResponse_failure_isolated (http : Http) (el : Nat → Nat)
    (version outputDir : String) (api : ApiConfig) (rest : List ApiConfig)
    (i : Nat) (st : OutState) (e : String)
    (h : http (sentRequest api.url api.method api.headers (paramsOrEmpty api.params))
      = .error e) :
    fetchApiResponse http api.url api.method api.headers (paramsOrEmpty api.params)
        version
      = (Json.null,
         ["Failed to fetch data from " ++ version ++ " " ++ api.url ++ ": " ++ e]) ∧
    runApis http el version outputDir (api :: rest) i st
      = ((runApis http el version outputDir rest (i + 1)
            (appendCsv st (csvRow el i api))).1,
         ("Failed to fetch data from " ++ version ++ " " ++ api.url ++ ": " ++ e)
           :: (runApis http el version outputDir rest (i + 1)
                (appendCsv st (csvRow el i api))).2) ∧
    (appendCsv st (csvRow el i api)).jsonFiles = st.jsonFiles := by
  have hf : fetchApiResponse http api.url api.method api.headers
      (paramsOrEmpty api.params) version
      = (Json.null,
         ["Failed to fetch data from " ++ version ++ " " ++ api.url ++ ": " ++ e]) := by
    unfold fetchApiResponse
    rw [h]
  refine ⟨hf, ?_, rfl⟩
  simp only [runApis, hf]
  simp [Json.truthy]

/-- Witness for C1: a single-endpoint batch whose call fails still produces
its timing row, writes no file, and terminates normally. -/
theorem fetchApiResponse_failure_isolated_witness :
    runApis (fun _ => .error "down") (fun _ => 7) "v1" "out"
      [⟨"A", "http://x", "GET", .obj .nil, none⟩] 0 ⟨[], none⟩
      = (⟨[], some ["A,7"]⟩, ["Failed to fetch data from v1 http://x: down"]) := by
  have h := fetchApiResponse_failure_isolated (fun _ => .error "down") (fun _ => 7)
    "v1" "out" ⟨"A", "http://x", "GET", .obj .nil, none⟩ [] 0 ⟨[], none⟩ "down" rfl
  exact h.2.1.trans (by decide)

/-! ### C3 — request body construction per method -/

/-- C3 counterexample: the claim says any non-GET method sends the params as
the request body, but the request assembled for method PUT carries no body —
the `data` field is `undefined` (`none`), not the params object — because the
code tests `method === 'POST'` specifically. -/
theorem sentRequest_put_no_body_cex :
    (sentRequest "http://x/y" "PUT" (.obj .nil)
        (.obj (.cons "a" (.num 1) .nil))).data = none ∧
    some (Json.obj (.cons "a" (.num 1) .nil)) ≠ (none : Option Json) := by
  decide

/-- C3 (amended): a GET request is sent with no body; a POST request sends the
config's params as the request body; every method other than POST (PUT, PATCH,
DELETE included) likewise sends no body; url, method and headers are forwarded
verbatim. -/
theorem sentRequest_body_and_headers (url : String) (headers params : Json) :
    (sentRequest url "GET" headers params).data = none ∧
    (sentRequest url "POST" headers params).data = some params ∧
    (∀ m, m ≠ "POST" → (sentRequest url m headers params).data = none) ∧
    (∀ m, (sentRequest url m headers params).url = url ∧
          (sentRequest url m headers params).method = m ∧
          (sentRequest url m headers params).headers = headers) := by
  refine ⟨?_, ?_, ?_, fun m => ⟨rfl, rfl, rfl⟩⟩
  · simp [sentRequest]
  · simp [sentRequest]
  · intro m hm
    simp [sentRequest, hm]

/-- Witness for C3 (amended), at method DELETE. -/
theorem sentRequest_body_and_headers_witness :
    (sentRequest "http://x/y" "DELETE" (.obj .nil) (.str "p")).data = none :=
  (sentRequest_body_and_headers "http://x/y" (.obj .nil) (.str "p")).2.2.1
    "DELETE" (by decide)

/-! ### C5 — batch output counts -/

/-- C5: for every config document with N endpoints, a batch run over an empty
output directory succeeds and writes at most N response JSON files and a CSV
consisting of the single header row followed by exactly N timing rows, one per
call in call order — failed calls included, which get a timing row but no
file. -/
theorem fetch_batch_counts (http : Http) (el : Nat → Nat) (cfg : Config)
    (outputDir : String) :
    (fetchAndSaveApiResponses http el (some cfg) outputDir ⟨[], none⟩).1 = true ∧
    ((fetchAndSaveApiResponses http el (some cfg) outputDir ⟨[], none⟩).2.1).csv
      = some (csvHeader :: csvRows el cfg.apis 0) ∧
    (csvRows el cfg.apis 0).length = cfg.apis.length ∧
    ((fetchAndSaveApiResponses http el (some cfg) outputDir
        ⟨[], none⟩).2.1).jsonFiles.length ≤ cfg.apis.length := by
  refine ⟨rfl, ?_, csvRows_length el cfg.apis 0, ?_⟩
  · show ((runApis http el cfg.version outputDir cfg.apis 0
        ⟨[], some [csvHeader]⟩).1).csv = _
    rw [runApis_csv http el cfg.version outputDir cfg.apis 0 _ [csvHeader] rfl]
    rfl
  · have h := runApis_files_length http el cfg.version outputDir cfg.apis 0
      ⟨[], some [csvHeader]⟩
    simpa using h

/-! ### C9 — falsy successful response writes no file -/

/-- C9: when an endpoint's HTTP call succeeds but the parsed body is a falsy
JSON value (`null`, `false`, `0` or `""`), the batch step writes no
`<name>.json` file — the output state changes exactly as for a failed call,
the timing-row append only — while the timing row is still appended to the
CSV. -/
theorem fetch_falsy_success_no_file (http : Http) (el : Nat → Nat)
    (version outputDir : String) (api : ApiConfig) (rest : List ApiConfig)
    (i : Nat) (st : OutState) (v : Json)
    (hok : http (sentRequest api.url api.method api.headers (paramsOrEmpty api.params))
      = .ok v)
    (hfalsy : v.truthy = false) :
    (fetchApiResponse http api.url api.method api.headers (paramsOrEmpty api.params)
        version).1 = v ∧
    runApis http el version outputDir (api :: rest) i st
      = ((runApis http el version outputDir rest (i + 1)
            (appendCsv st (csvRow el i api))).1,
         ("Fetched response from " ++ version ++ " " ++ api.url)
           :: (runApis http el version outputDir rest (i + 1)
                (appendCsv st (csvRow el i api))).2) ∧
    (appendCsv st (csvRow el i api)).jsonFiles = st.jsonFiles ∧
    (appendCsv st (csvRow el i api)).csv
      = some (st.csv.getD [] ++ [csvRow el i api]) := by
  have hf : fetchApiResponse http api.url api.method api.headers
      (paramsOrEmpty api.params) version
      = (v, ["Fetched response from " ++ version ++ " " ++ api.url]) := by
    unfold fetchApiResponse
    rw [hok]
  refine ⟨by rw [hf], ?_, rfl, rfl⟩
  simp only [runApis, hf]
  simp [hfalsy]

/-- Witness for C9: a call that succeeds with body `null` leaves no JSON file
but still gets its timing row. -/
theorem fetch_falsy_success_no_file_witness :
    runApis (fun _ => .ok Json.null) (fun _ => 4) "v1" "out"
      [⟨"A", "http://x", "GET", .obj .nil, none⟩] 0 ⟨[], none⟩
      = (⟨[], some ["A,4"]⟩, ["Fetched response from v1 http://x"]) := by
  have h := fetch_falsy_success_no_file (fun _ => .ok Json.null) (fun _ => 4)
    "v1" "out" ⟨"A", "http://x", "GET", .obj .nil, none⟩ [] 0 ⟨[], none⟩
    Json.null rfl rfl
  exact h.2.1.trans (by decide)

/-! ### C10 — CSV truncation and stale response files -/

/-- C10: a batch run overwrites any existing `response_times.csv` with a fresh
header (the final CSV is the header plus this run's rows, whatever the initial
CSV was), while response JSON files are never deleted: every initial file is
still present afterwards; a file whose endpoints all fail (falsy response) in
the current run keeps its exact stale content; and any file present afterwards
either was there initially or is named by one of the run's endpoints. -/
theorem fetch_batch_frame (http : Http) (el : Nat → Nat) (cfg : Config)
    (outputDir : String) (init : OutState) :
    (batchOut http el cfg outputDir init).csv
      = some (csvHeader :: csvRows el cfg.apis 0) ∧
    (∀ k, (getVal init.jsonFiles k).isSome = true →
      (getVal (batchOut http el cfg outputDir init).jsonFiles k).isSome = true) ∧
    (∀ k, (∀ api ∈ cfg.apis, api.name ++ ".json" = k →
        (responseOf http cfg.version api).truthy = false) →
      getVal (batchOut http el cfg outputDir init).jsonFiles k
        = getVal init.jsonFiles k) ∧
    (∀ k, (getVal (batchOut http el cfg outputDir init).jsonFiles k).isSome = true →
      (getVal init.jsonFiles k).isSome = true ∨
        k ∈ cfg.apis.map (fun a => a.name ++ ".json")) := by
  refine ⟨?_, ?_, ?_, ?_⟩
  · show ((runApis http el cfg.version outputDir cfg.apis 0
        ⟨init.jsonFiles, some [csvHeader]⟩).1).csv = _
    rw [runApis_csv http el cfg.version outputDir cfg.apis 0 _ [csvHeader] rfl]
    rfl
  · intro k h
    exact runApis_getVal_isSome_mono http el cfg.version outputDir k cfg.apis 0
      ⟨init.jsonFiles, some [csvHeader]⟩ h
  · intro k hall
    exact runApis_getVal_frame http el cfg.version outputDir k cfg.apis 0
      ⟨init.jsonFiles, some [csvHeader]⟩ hall
  · intro k h
    exact runApis_getVal_origin http el cfg.version outputDir k cfg.apis 0
      ⟨init.jsonFiles, some [csvHeader]⟩ h

/-- Witness for C10: over a directory holding stale `A.json`, `B.json` and an
old CSV, a run where endpoint A fails and endpoint B succeeds truncates the
CSV to header plus two fresh rows, keeps the stale `A.json` content untouched,
and keeps `B.json` present. -/
theorem fetch_batch_frame_witness :
    (batchOut
      (fun r => if r.url = "http://b" then .ok (.num 1) else .error "down")
      (fun _ => 5)
      ⟨"v1", [⟨"A", "http://a", "GET", .obj .nil, none⟩,
              ⟨"B", "http://b", "GET", .obj .nil, none⟩]⟩
      "out" ⟨[("A.json", .num 9), ("B.json", .num 8)], some ["old"]⟩).csv
      = some [csvHeader, "A,5", "B,5"] ∧
    getVal (batchOut
      (fun r => if r.url = "http://b" then .ok (.num 1) else .error "down")
      (fun _ => 5)
      ⟨"v1", [⟨"A", "http://a", "GET", .obj .nil, none⟩,
              ⟨"B", "http://b", "GET", .obj .nil, none⟩]⟩
      "out" ⟨[("A.json", .num 9), ("B.json", .num 8)], some ["old"]⟩).jsonFiles
      "A.json" = some (.num 9) ∧
    (getVal (batchOut
      (fun r => if r.url = "http://b" then .ok (.num 1) else .error "down")
      (fun _ => 5)
      ⟨"v1", [⟨"A", "http://a", "GET", .obj .nil, none⟩,
              ⟨"B", "http://b", "GET", .obj .nil, none⟩]⟩
      "out" ⟨[("A.json", .num 9), ("B.json", .num 8)], some ["old"]⟩).jsonFiles
      "B.json").isSome = true := by
  have h := fetch_batch_frame
    (fun r => if r.url = "http://b" then .ok (.num 1) else .error "down")
    (fun _ => 5)
    ⟨"v1", [⟨"A", "http://a", "GET", .obj .nil, none⟩,
            ⟨"B", "http://b", "GET", .obj .nil, none⟩]⟩
    "out" ⟨[("A.json", .num 9), ("B.json", .num 8)], some ["old"]⟩
  refine ⟨h.1.trans (by decide), ?_, ?_⟩
  · exact (h.2.2.1 "A.json" (by decide)).trans (by decide)
  · exact h.2.1 "B.json" (by decide)
